import Mathlib

/-!
# Verification of the Lumina auth core and HTTP/TLS multiplexer

Shallow embedding of `backend/app/controllers/auth_controller.py` and
`backend/app/utils/http_tls_multiplexer.py`.  Python dicts become
insertion-ordered association lists, `time.time()` becomes an explicit
integer-valued clock parameter, the bcrypt library becomes an abstract
oracle, and fresh random tokens become explicit parameters.
-/

set_option autoImplicit false

namespace Lumina

/-- Time instants and expiry timestamps (Python `time.time()` values,
modelled at integer resolution: only comparisons and additions occur). -/
abbrev Time := Int

/-- Embeds `AuthHandler._tokens : Dict[str, float]` — token → absolute expiry,
as an insertion-ordered association list with (in practice) unique keys. -/
abbrev TokenMap := List (String × Time)

/-- Embeds `AuthHandler._failed_attempts_by_ip : Dict[str, Deque[float]]`. -/
abbrev FailMap := List (String × List Time)

/-- Embeds `dict.pop(k, None)`: remove the entry for key `k` (no error if absent). -/
def eraseKey {β : Type} (k : String) (l : List (String × β)) : List (String × β) :=
  l.filter (fun p => p.1 != k)

/-- Embeds `dict[k] = v`: replace in place if the key is present, else append. -/
def setKey {β : Type} (k : String) (v : β) (l : List (String × β)) : List (String × β) :=
  if (l.lookup k).isSome then l.map (fun p => if p.1 = k then (k, v) else p)
  else l ++ [(k, v)]

/-- Embeds `AuthHandler._cleanup_expired_tokens`: drop every token whose
expiry `exp` satisfies `exp <= now`. -/
def cleanupExpired (now : Time) (tokens : TokenMap) : TokenMap :=
  tokens.filter (fun p => decide (now < p.2))

/-- Embeds `AuthHandler.revoke_token`: `self._tokens.pop(token, None)`. -/
def revokeToken (tokens : TokenMap) (token : String) : TokenMap :=
  eraseKey token tokens

/-- Embeds `AuthHandler.is_token_valid`: `False` for a falsy (empty) token;
otherwise clean expired tokens, then test membership.  Returns the
result together with the store as left behind by the call. -/
def isTokenValid (now : Time) (tokens : TokenMap) (token : String) : Bool × TokenMap :=
  if token == "" then (false, tokens)
  else
    let ts := cleanupExpired now tokens
    ((ts.lookup token).isSome, ts)

/-- Embeds `AuthHandler.active_session_count`. -/
def activeSessionCount (now : Time) (tokens : TokenMap) : Nat × TokenMap :=
  let ts := cleanupExpired now tokens
  (ts.length, ts)

/-- Embeds `AuthHandler.revoke_all_tokens(keep_token=None)`: cleanup, then if
`keep_token` is truthy and present keep only it and return
`max(0, len-1)`; otherwise clear everything and return the full length. -/
def revokeAllTokens (now : Time) (tokens : TokenMap) (keep : Option String) :
    Nat × TokenMap :=
  let ts := cleanupExpired now tokens
  match keep with
  | some k =>
    if k == "" then (ts.length, [])
    else
      match ts.lookup k with
      | some e => (ts.length - 1, [(k, e)])
      | none => (ts.length, [])
  | none => (ts.length, [])

/-- One failed-attempt timestamp is stale when `now - t > window`. -/
def staleAttempt (now window t : Time) : Bool :=
  decide (window < now - t)

/-- The front-trimming loop of `_can_attempt_login`:
`while attempts and now - attempts[0] > window: attempts.popleft()`. -/
def pruneAttempts (now window : Time) (attempts : List Time) : List Time :=
  attempts.dropWhile (staleAttempt now window)

/-- Embeds `AuthHandler._can_attempt_login`: `setdefault` the ip's deque, prune
stale front entries, and allow iff fewer than `maxAttempts` remain.
Returns the decision together with the updated map. -/
def canAttemptLogin (now window : Time) (maxAttempts : Nat) (fa : FailMap)
    (ip : String) : Bool × FailMap :=
  let attempts := (fa.lookup ip).getD []
  let pruned := pruneAttempts now window attempts
  (decide (pruned.length < maxAttempts), setKey ip pruned fa)

/-- Embeds `AuthHandler._record_failed_attempt`: append `now` to the ip's deque. -/
def recordFailedAttempt (now : Time) (fa : FailMap) (ip : String) : FailMap :=
  setKey ip (((fa.lookup ip).getD []) ++ [now]) fa

/-- The bcrypt library as an abstract oracle: `checkpw` may raise
`ValueError` on a malformed hash (modelled as `Except.error`). -/
structure Bcrypt where
  hashpw : String → String
  checkpw : String → String → Except Unit Bool

/-- Embeds `AuthHandler._is_bcrypt_hash`. -/
def isBcryptHash (value : String) : Bool :=
  if value == "" then false
  else value.startsWith "$2a$" || value.startsWith "$2b$" || value.startsWith "$2y$"

/-- Python's ASCII test on a `str` (`str.isascii()`), as performed by
`hmac.compare_digest` on string arguments. -/
def isAsciiString (s : String) : Bool :=
  s.data.all (fun c => c.toNat ≤ 127)

/-- Embeds `hmac.compare_digest` on two `str` arguments: constant-time
equality, but raising `TypeError` ("comparing strings with non-ASCII
characters is not supported", modelled as `Except.error`) when either
string contains a non-ASCII character. -/
def compareDigest (a b : String) : Except Unit Bool :=
  if isAsciiString a && isAsciiString b then .ok (a == b) else .error ()

/-- Embeds `AuthHandler.verify_password`, with the stored credential
(`config.panel_password`) passed explicitly: `False` when the stored
value is empty; bcrypt check when it carries a bcrypt marker, the
`ValueError` of a malformed hash caught and turned into `False`; the
legacy-plaintext branch is `hmac.compare_digest`, whose `TypeError` on
non-ASCII input is NOT caught anywhere and propagates to the caller
(`Except.error`). -/
def verifyPassword (bc : Bcrypt) (password stored : String) : Except Unit Bool :=
  if stored == "" then .ok false
  else if isBcryptHash stored then
    match bc.checkpw password stored with
    | .ok b => .ok b
    | .error _ => .ok false
  else compareDigest password stored

/-- The config collaborator's fields read by the auth core. -/
structure Config where
  initialized : Bool
  panelPassword : String
  deriving DecidableEq, Repr

/-- The mutable state owned by the `AuthHandler` singleton. -/
structure AuthState where
  tokens : TokenMap
  failedAttempts : FailMap
  deriving DecidableEq, Repr

/-- Environment-tunable constants read in `AuthHandler.__init__`. -/
structure AuthEnv where
  tokenTtlSeconds : Time
  maxLoginAttempts : Nat
  attemptWindowSeconds : Time

/-- Embeds `AuthHandler.create_token`: cleanup, generate a fresh token (passed
in as `newTok`, standing for `secrets.token_hex(32)`), record
`expiry = now + ttl`. -/
def createToken (env : AuthEnv) (now : Time) (newTok : String) (tokens : TokenMap) :
    String × TokenMap :=
  let ts := cleanupExpired now tokens
  (newTok, setKey newTok (now + env.tokenTtlSeconds) ts)

/-- Terminal outcomes of `AuthHandler.authenticate`: HTTP 400 "not
initialized", HTTP 400 "authentication disabled", HTTP 429, HTTP 401,
success carrying the issued token — or an uncaught exception escaping
the handler (surfaced as HTTP 500): the `TypeError` raised by
`hmac.compare_digest` on non-ASCII input in the legacy-plaintext
branch, which nothing in `authenticate` catches. -/
inductive LoginOutcome where
  | notInitialized
  | authDisabled
  | rateLimited
  | invalidCredential
  | success (token : String)
  | uncaughtError
  deriving DecidableEq, Repr

/-- Embeds `AuthHandler.authenticate(password, client_ip)`.  `migrateFails`
models the `except Exception` branch around the safety-net plaintext
migration (config.set / hashing raising); `newTok` is the fresh random
token `create_token` would draw.  A `TypeError` escaping
`verify_password` is not caught: the call terminates with
`uncaughtError` carrying the state as already mutated by the throttle
check (the ip's deque created and pruned by `setdefault`). -/
def authenticate (env : AuthEnv) (bc : Bcrypt) (cfg : Config) (st : AuthState)
    (password clientIp : String) (now : Time) (newTok : String)
    (migrateFails : Bool) : LoginOutcome × Config × AuthState :=
  if !cfg.initialized then (.notInitialized, cfg, st)
  else if cfg.panelPassword == "" then (.authDisabled, cfg, st)
  else
    let res := canAttemptLogin now env.attemptWindowSeconds env.maxLoginAttempts
      st.failedAttempts clientIp
    let st1 : AuthState := { st with failedAttempts := res.2 }
    if !res.1 then (.rateLimited, cfg, st1)
    else
      match verifyPassword bc password cfg.panelPassword with
      | .error _ => (.uncaughtError, cfg, st1)
      | .ok false =>
        (.invalidCredential, cfg,
          { st1 with failedAttempts := recordFailedAttempt now st1.failedAttempts clientIp })
      | .ok true =>
        let cfg1 := if !isBcryptHash cfg.panelPassword && !migrateFails then
            { cfg with panelPassword := bc.hashpw cfg.panelPassword }
          else cfg
        let st2 := { st1 with failedAttempts := eraseKey clientIp st1.failedAttempts }
        let r := createToken env now newTok st2.tokens
        (.success r.1, cfg1, { st2 with tokens := r.2 })

/-- Outcomes of `AuthHandler.get_current_user`: HTTP 503 before
initialization, HTTP 401 without credentials, HTTP 401 for a bad token,
or the granted principal. -/
inductive AuthzResult where
  | notInitialized
  | notAuthenticated
  | invalidToken
  | granted (user : String)
  deriving DecidableEq, Repr

/-- Embeds `AuthHandler.get_current_user`: the protected-request dependency.
`creds` is the extracted bearer token, `none` when absent.  Mirrors the
falsy test `if not expiry` (true for a missing entry or expiry `0`). -/
def getCurrentUser (cfg : Config) (st : AuthState) (creds : Option String)
    (now : Time) : AuthzResult × AuthState :=
  if !cfg.initialized then (.notInitialized, st)
  else if cfg.panelPassword == "" then (.granted "admin", st)
  else
    match creds with
    | none => (.notAuthenticated, st)
    | some token =>
      let ts := cleanupExpired now st.tokens
      let st1 := { st with tokens := ts }
      match ts.lookup token with
      | none => (.invalidToken, st1)
      | some expiry =>
        if expiry == 0 then (.invalidToken, st1) else (.granted "admin", st1)

/-! ## The HTTP/TLS multiplexer (`backend/app/utils/http_tls_multiplexer.py`) -/

/-- A peeked byte buffer: each element is a byte value `0..255`. -/
abbrev Bytes := List Nat

/-- Characters of an `iso-8859-1`-decoded request (code points `0..255`). -/
abbrev Chars := List Char

/-- Embeds `bytes.upper()` on one byte: ASCII lowercase letters map to uppercase. -/
def byteUpper (b : Nat) : Nat :=
  if 97 ≤ b ∧ b ≤ 122 then b - 32 else b

/-- Embeds `prefix.upper()`. -/
def bytesUpper (bs : Bytes) : Bytes := bs.map byteUpper

/-- The bytes of an ASCII string literal. -/
def strBytes (s : String) : Bytes := s.data.map Char.toNat

/-- Embeds `_HTTP_METHOD_PREFIXES`: the nine method tokens, each with its
trailing space. -/
def httpMethodTokens : List Bytes :=
  [strBytes "GET ", strBytes "POST ", strBytes "PUT ", strBytes "PATCH ",
   strBytes "DELETE ", strBytes "HEAD ", strBytes "OPTIONS ",
   strBytes "TRACE ", strBytes "CONNECT "]

/-- Embeds `_looks_like_tls`: `len(prefix) >= 3 and prefix[0] == 0x16 and
prefix[1] == 0x03 and prefix[2] <= 0x04`. -/
def looksLikeTls (pre : Bytes) : Bool :=
  match pre with
  | b0 :: b1 :: b2 :: _ => b0 == 22 && b1 == 3 && decide (b2 ≤ 4)
  | _ => false

/-- Embeds `_looks_like_http`: the upper-cased buffer starts with a method token. -/
def looksLikeHttp (pre : Bytes) : Bool :=
  httpMethodTokens.any (fun m => m.isPrefixOf (bytesUpper pre))

/-- The classification of a sniffed connection. -/
inductive StreamClass where
  | tls
  | http
  | unknown
  deriving DecidableEq, Repr

/-- The branch order of `_handle_client`: TLS first, then HTTP, else
unknown (which is answered like HTTP with empty host and path `/`). -/
def classifyStream (pre : Bytes) : StreamClass :=
  if looksLikeTls pre then .tls
  else if looksLikeHttp pre then .http
  else .unknown

/-- Python whitespace for `str.split()` / `str.strip()`, restricted to
the Latin-1 range the decoded prelude lives in. -/
def isPySpace (c : Char) : Bool :=
  c.toNat == 9 || c.toNat == 10 || c.toNat == 11 || c.toNat == 12 ||
  c.toNat == 13 || c.toNat == 28 || c.toNat == 29 || c.toNat == 30 ||
  c.toNat == 31 || c.toNat == 32 || c.toNat == 133 || c.toNat == 160

/-- Embeds `text.split("\r\n")`. -/
def splitCRLF : Chars → List Chars
  | [] => [[]]
  | '\r' :: '\n' :: rest => [] :: splitCRLF rest
  | c :: rest =>
    match splitCRLF rest with
    | [] => [[c]]
    | l :: ls => (c :: l) :: ls

/-- Embeds `line.split()` — split on whitespace runs, dropping empty pieces. -/
def pySplitWs (cs : Chars) : List Chars :=
  let step := fun (acc : List Chars × Chars) (c : Char) =>
    if isPySpace c then
      if acc.2 = [] then acc else (acc.1 ++ [acc.2.reverse], ([] : Chars))
    else (acc.1, c :: acc.2)
  let r := cs.foldl step ([], [])
  if r.2 = [] then r.1 else r.1 ++ [r.2.reverse]

/-- Embeds `s.strip()`. -/
def pyStrip (cs : Chars) : Chars :=
  ((cs.dropWhile isPySpace).reverse.dropWhile isPySpace).reverse

/-- Embeds `str.lower()` on the Latin-1 range (ASCII letters and `À`-`Þ`). -/
def charLower (c : Char) : Char :=
  let n := c.toNat
  if (65 ≤ n ∧ n ≤ 90) ∨ (192 ≤ n ∧ n ≤ 222 ∧ n ≠ 215) then Char.ofNat (n + 32)
  else c

/-- Result of `urllib.parse.urlsplit`. -/
structure UrlParts where
  scheme : Chars
  netloc : Chars
  path : Chars
  query : Chars
  fragment : Chars
  deriving DecidableEq, Repr

/-- ASCII letters. -/
def isAsciiAlpha (c : Char) : Bool :=
  (65 ≤ c.toNat && c.toNat ≤ 90) || (97 ≤ c.toNat && c.toNat ≤ 122)

/-- Embeds `scheme_chars` of `urllib.parse`. -/
def isSchemeChar (c : Char) : Bool :=
  isAsciiAlpha c || (48 ≤ c.toNat && c.toNat ≤ 57) || c == '+' || c == '-' || c == '.'

/-- C0 control characters and space, stripped by `urlsplit` from both ends. -/
def isC0OrSpace (c : Char) : Bool := c.toNat ≤ 32

/-- Split at the first occurrence of `sep`: the part before it, and
(when found) the part after it. -/
def splitFirst (sep : Char) (cs : Chars) : Chars × Option Chars :=
  match cs.span (fun c => c != sep) with
  | (before, _ :: after) => (before, some after)
  | (before, []) => (before, none)

/-- The scheme-splitting step of `urlsplit`: a leading ASCII letter
followed by scheme characters up to the first `:` is the (lowercased)
scheme. -/
def splitScheme (url : Chars) : Chars × Chars :=
  match splitFirst ':' url with
  | (before, some after) =>
    if (match before.head? with | some c => isAsciiAlpha c | none => false)
        && before.all isSchemeChar then
      (before.map charLower, after)
    else ([], url)
  | (_, none) => ([], url)

/-- Embeds `_splitnetloc`: after `//`, the netloc runs to the first of
`/`, `?`, `#`. -/
def splitNetloc (url : Chars) : Chars × Chars :=
  let rest := url.drop 2
  (rest.takeWhile (fun c => c != '/' && c != '?' && c != '#'),
   rest.dropWhile (fun c => c != '/' && c != '?' && c != '#'))

/-- The sanitation step of `urlsplit` (CPython 3.11): lstrip C0 controls
and spaces from the LEFT end only (trailing ones are preserved), then
delete every tab, CR and LF. -/
def urlsplitClean (url : Chars) : Chars :=
  (url.dropWhile isC0OrSpace).filter (fun c => c != '\t' && c != '\r' && c != '\n')

/-- Embeds `urllib.parse.urlsplit` (with `allow_fragments=True`), total
on the fragment where CPython cannot raise.  CPython raises `ValueError`
in three places — mismatched brackets in the netloc, the bracketed-host
validation when both brackets are present, and the NFKC check on a
non-ASCII netloc — none of which is modelled: every theorem below that
depends on `urlsplit` carries a `netlocSafe` hypothesis (bracket-free,
all-ASCII netloc) confining it to the modelled fragment. -/
def urlsplit (url0 : Chars) : UrlParts :=
  let url1 := urlsplitClean url0
  let s := splitScheme url1
  let n := if s.2.take 2 = ['/', '/'] then splitNetloc s.2 else ([], s.2)
  let f := match splitFirst '#' n.2 with
    | (b, some a) => (b, a)
    | (b, none) => (b, ([] : Chars))
  let q := match splitFirst '?' f.1 with
    | (b, some a) => (b, a)
    | (b, none) => (b, ([] : Chars))
  ⟨s.1, n.1, q.1, q.2, f.2⟩

/-- The request-line phase of `_parse_http_host_and_path`: split the
first line on whitespace; with at least two parts, take the target; an
absolute target (truthy scheme and netloc) supplies host and path
(query re-attached); otherwise the target is the path and the host
stays empty. -/
def parseRequestLine (firstLine : Chars) : Chars × Chars :=
  match pySplitWs firstLine with
  | _ :: rawTarget :: _ =>
    let target0 := pyStrip rawTarget
    let target := if target0 = [] then ['/'] else target0
    let u := urlsplit target
    if u.scheme ≠ [] ∧ u.netloc ≠ [] then
      let p0 := if u.path = [] then ['/'] else u.path
      (u.netloc, if u.query ≠ [] then p0 ++ '?' :: u.query else p0)
    else ([], target)
  | _ => ([], ['/'])

/-- One header line's `Host:` value, when the line carries one:
`key, value = line.split(":", 1)`, matched case-insensitively. -/
def hostHeaderValue (line : Chars) : Option Chars :=
  match splitFirst ':' line with
  | (_, none) => none
  | (key, some value) =>
    if (pyStrip key).map charLower = "host".data then some (pyStrip value) else none

/-- The header-scanning loop of `_parse_http_host_and_path`: stop at the
blank line, skip colon-free lines, first `Host:` match wins (else the
incoming `host` survives). -/
def scanHostHeader : List Chars → Chars → Chars
  | [], host => host
  | line :: rest, host =>
    if line = [] then host
    else
      match hostHeaderValue line with
      | some v => v
      | none => scanHostHeader rest host

/-- Specification-side view of the scan: the first `Host:` header value
strictly before the blank line, if any. -/
def firstHostHeader : List Chars → Option Chars
  | [] => none
  | line :: rest =>
    if line = [] then none
    else
      match hostHeaderValue line with
      | some v => some v
      | none => firstHostHeader rest

/-- Embeds `_parse_http_host_and_path`. -/
def parseHttpHostAndPath (raw : Chars) : Chars × Chars :=
  let lines := splitCRLF raw
  let hp :=
    match lines with
    | [] => (([] : Chars), ['/'])
    | first :: _ => parseRequestLine first
  let host := scanHostHeader lines.tail hp.1
  let path := if hp.2.head? = some '/' then hp.2 else '/' :: hp.2
  (host, path)

/-- The request-line target exactly as `_parse_http_host_and_path`
hands it to `urlsplit`: second whitespace-separated part of the first
line, stripped, defaulting to `/`. -/
def requestTarget (raw : Chars) : Chars :=
  match splitCRLF raw with
  | first :: _ =>
    match pySplitWs first with
    | _ :: tgt :: _ => if pyStrip tgt = [] then ['/'] else pyStrip tgt
    | _ => ['/']
  | [] => ['/']

/-- The fragment of `urlsplit` inputs on which the total model is
faithful: a netloc with no bracket (neither bracket `ValueError` can
fire) that is pure ASCII (the NFKC netloc check returns immediately). -/
def netlocSafe (u : UrlParts) : Prop :=
  '[' ∉ u.netloc ∧ ']' ∉ u.netloc ∧ ∀ c ∈ u.netloc, c.toNat ≤ 127

/-- Embeds `_build_redirect_target`.  The truncation at the first colon
(`host_header.split(":", 1)[0]`) is taken on the character list. -/
def buildRedirectTarget (hostHeader path forceDomain : String) (httpsPort : Nat) :
    String :=
  let host := if hostHeader == "" then ""
    else String.mk (hostHeader.data.takeWhile (fun c => c != ':'))
  let host1 := if forceDomain != "" then forceDomain else host
  let host2 := if host1 == "" then "localhost" else host1
  let netloc := if httpsPort == 443 then host2 else host2 ++ ":" ++ toString httpsPort
  "https://" ++ netloc ++ (if path == "" then "/" else path)

/-- A trivial bcrypt oracle, used to instantiate concrete examples whose
control flow never reaches the bcrypt library. -/
def dummyBcrypt : Bcrypt :=
  ⟨fun _ => "", fun _ _ => .error ()⟩

/-! ## Association-list lemmas -/

theorem lookup_eq_none_iff {β : Type} (k : String) (l : List (String × β)) :
    l.lookup k = none ↔ k ∉ l.map Prod.fst := by
  induction l with
  | nil => simp
  | cons a t ih =>
    obtain ⟨a1, a2⟩ := a
    by_cases h : k = a1
    · subst h
      have e : (k == k) = true := beq_self_eq_true k
      simp [List.lookup_cons, e]
    · have e : (k == a1) = false := by rw [beq_eq_false_iff_ne]; exact h
      simp [List.lookup_cons, e, ih, h]

theorem not_mem_keys_filter {β : Type} (f : String × β → Bool) (l : List (String × β))
    (k : String) (h : k ∉ l.map Prod.fst) : k ∉ (l.filter f).map Prod.fst := by
  intro hmem
  apply h
  have hs : (l.filter f).Sublist l := List.filter_sublist l
  exact (hs.map Prod.fst).subset hmem

theorem lookup_filter_nodup {β : Type} (f : String × β → Bool) (l : List (String × β))
    (k : String) (hnd : (l.map Prod.fst).Nodup) :
    (l.filter f).lookup k =
      (l.lookup k).bind (fun v => if f (k, v) then some v else none) := by
  induction l with
  | nil => simp
  | cons a t ih =>
    obtain ⟨a1, a2⟩ := a
    simp only [List.map_cons, List.nodup_cons] at hnd
    by_cases h : k = a1
    · subst h
      have e : (k == k) = true := beq_self_eq_true k
      by_cases hf : f (k, a2)
      · simp [List.filter_cons, hf, List.lookup_cons, e]
      · have hna : (t.filter f).lookup k = none :=
          (lookup_eq_none_iff k (t.filter f)).mpr (not_mem_keys_filter f t k hnd.1)
        simp [List.filter_cons, hf, List.lookup_cons, e, hna]
    · have e : (k == a1) = false := by rw [beq_eq_false_iff_ne]; exact h
      by_cases hf : f (a1, a2) <;>
        simp [List.filter_cons, hf, List.lookup_cons, e, ih hnd.2]

theorem lookup_filter_congr {β : Type} (k : String) (f g : String × β → Bool)
    (h : ∀ v, f (k, v) = g (k, v)) (l : List (String × β)) :
    (l.filter f).lookup k = (l.filter g).lookup k := by
  induction l with
  | nil => rfl
  | cons a t ih =>
    obtain ⟨a1, a2⟩ := a
    by_cases hk : k = a1
    · subst hk
      have hfg := h a2
      have e : (k == k) = true := beq_self_eq_true k
      by_cases hf : f (k, a2)
      · have hg : g (k, a2) = true := by rw [← hfg]; exact hf
        simp [List.filter_cons, hf, hg, List.lookup_cons, e]
      · have hf2 : f (k, a2) = false := Bool.eq_false_iff.mpr hf
        have hg : g (k, a2) = false := by rw [← hfg]; exact hf2
        simp [List.filter_cons, hf2, hg, ih]
    · have e : (k == a1) = false := by rw [beq_eq_false_iff_ne]; exact hk
      by_cases hf : f (a1, a2) <;> by_cases hg : g (a1, a2) <;>
        simp [List.filter_cons, hf, hg, List.lookup_cons, e, ih]

theorem lookup_append {β : Type} (k : String) (l1 l2 : List (String × β)) :
    (l1 ++ l2).lookup k =
      match l1.lookup k with
      | some v => some v
      | none => l2.lookup k := by
  induction l1 with
  | nil => simp
  | cons a t ih =>
    obtain ⟨a1, a2⟩ := a
    by_cases h : k = a1
    · subst h
      have e : (k == k) = true := beq_self_eq_true k
      simp [List.lookup_cons, e]
    · have e : (k == a1) = false := by rw [beq_eq_false_iff_ne]; exact h
      simp [List.lookup_cons, e, ih]

theorem lookup_map_replace {β : Type} (k : String) (v : β) (l : List (String × β)) :
    (l.map (fun p => if p.1 = k then (k, v) else p)).lookup k =
      if (l.lookup k).isSome then some v else none := by
  induction l with
  | nil => simp
  | cons a t ih =>
    obtain ⟨a1, a2⟩ := a
    by_cases h : a1 = k
    · subst h
      have e : (a1 == a1) = true := beq_self_eq_true a1
      simp [List.lookup_cons, e]
    · have e : (k == a1) = false := by rw [beq_eq_false_iff_ne]; exact Ne.symm h
      simp only [List.map_cons, List.lookup_cons, e, if_neg h]
      simp [ih]

theorem lookup_map_replace_ne {β : Type} (k k2 : String) (v : β) (l : List (String × β))
    (h : k2 ≠ k) :
    (l.map (fun p => if p.1 = k then (k, v) else p)).lookup k2 = l.lookup k2 := by
  induction l with
  | nil => simp
  | cons a t ih =>
    obtain ⟨a1, a2⟩ := a
    by_cases ha : a1 = k
    · subst ha
      have e : (k2 == a1) = false := by rw [beq_eq_false_iff_ne]; exact h
      simp [List.lookup_cons, e, ih]
    · by_cases hb : k2 = a1
      · subst hb
        have e : (k2 == k2) = true := beq_self_eq_true k2
        simp [List.lookup_cons, e, ha]
      · have e : (k2 == a1) = false := by rw [beq_eq_false_iff_ne]; exact hb
        simp [List.lookup_cons, e, ha, ih]

theorem lookup_setKey_self {β : Type} (k : String) (v : β) (l : List (String × β)) :
    (setKey k v l).lookup k = some v := by
  unfold setKey
  by_cases h : (l.lookup k).isSome
  · simp [h, lookup_map_replace]
  · rw [if_neg h, lookup_append]
    have hnone : l.lookup k = none := by
      cases hl : l.lookup k with
      | none => rfl
      | some w => rw [hl] at h; simp at h
    have e : (k == k) = true := beq_self_eq_true k
    simp [hnone, List.lookup_cons, e]

theorem lookup_setKey_ne {β : Type} (k k2 : String) (v : β) (l : List (String × β))
    (h : k2 ≠ k) : (setKey k v l).lookup k2 = l.lookup k2 := by
  unfold setKey
  by_cases hp : (l.lookup k).isSome
  · simp [hp, lookup_map_replace_ne k k2 v l h]
  · rw [if_neg hp, lookup_append]
    have e : (k2 == k) = false := by rw [beq_eq_false_iff_ne]; exact h
    cases hl : l.lookup k2 with
    | none => simp [List.lookup_cons, e]
    | some w => simp

theorem lookup_eraseKey_self {β : Type} (k : String) (l : List (String × β)) :
    (eraseKey k l).lookup k = none := by
  rw [lookup_eq_none_iff]
  intro hmem
  rcases List.mem_map.mp hmem with ⟨p, hp, hfst⟩
  rcases List.mem_filter.mp hp with ⟨-, hpred⟩
  rw [hfst] at hpred
  simp at hpred

/-! ## Sliding-window lemmas -/

theorem pruneAttempts_sublist (now window : Time) (l : List Time) :
    (pruneAttempts now window l).Sublist l :=
  List.dropWhile_sublist (staleAttempt now window)

theorem pruneAttempts_eq_filter (now window : Time) (l : List Time)
    (hs : l.Pairwise (fun a b => a ≤ b)) :
    pruneAttempts now window l = l.filter (fun t => !staleAttempt now window t) := by
  induction l with
  | nil => rfl
  | cons a t ih =>
    rw [List.pairwise_cons] at hs
    by_cases h : staleAttempt now window a = true
    · simp [pruneAttempts, List.dropWhile_cons, List.filter_cons, h]
      exact ih hs.2
    · have h2 : ∀ b ∈ t, (!staleAttempt now window b) = true := by
        intro b hb
        have hab := hs.1 b hb
        have hna : ¬ (window < now - a) := by simpa [staleAttempt] using h
        have hb2 : ¬ (window < now - b) := by push_neg at *; linarith
        simpa [staleAttempt] using hb2
      have hf : t.filter (fun t => !staleAttempt now window t) = t :=
        List.filter_eq_self.mpr h2
      simp [pruneAttempts, List.dropWhile_cons, List.filter_cons, h, hf]

theorem pruneAttempts_eq_nil (now window : Time) (l : List Time)
    (h : ∀ t ∈ l, staleAttempt now window t = true) :
    pruneAttempts now window l = [] := by
  induction l with
  | nil => rfl
  | cons a t ih =>
    have ha := h a (by simp)
    simp only [pruneAttempts, List.dropWhile_cons, ha, if_true]
    exact ih (fun b hb => h b (by simp [hb]))

theorem pruneAttempts_eq_self (now window : Time) (l : List Time)
    (h : ∀ t ∈ l, staleAttempt now window t = false) :
    pruneAttempts now window l = l := by
  cases l with
  | nil => rfl
  | cons a t =>
    have ha := h a (by simp)
    simp [pruneAttempts, List.dropWhile_cons, ha]

/-! ## Claim theorems -/

/-- C9: when the system is initialized and the stored credential is
empty (authentication disabled), `get_current_user` grants the fixed
identity "admin" for every request — also when a bearer token is
presented, even an unknown or expired one — and the token store is left
untouched (never consulted). -/
theorem C9_disabled_grants_admin (st : AuthState) (creds : Option String) (now : Time) :
    getCurrentUser ⟨true, ""⟩ st creds now = (.granted "admin", st) := rfl

/-- C6, counterexample to the claim as stated: `verify_password` with an
empty stored credential returns plain `False`, the very same outcome an
ordinary wrong-password verification failure produces — the two are not
distinguishable at the verifier. -/
theorem C6_verify_not_distinct_cex :
    verifyPassword dummyBcrypt "x" "" = .ok false ∧
    verifyPassword dummyBcrypt "x" "y" = .ok false ∧
    verifyPassword dummyBcrypt "x" "" = verifyPassword dummyBcrypt "x" "y" := by
  refine ⟨rfl, rfl, rfl⟩

/-- C6 (amended): the distinct authentication-disabled outcome is
signalled one level up, by `authenticate`, which fails with kind
`AuthDisabled` (≠ `InvalidCredential`) before verification is ever
reached; `verify_password` itself returns false for an empty stored
credential. -/
theorem C6_authDisabled_distinct (env : AuthEnv) (bc : Bcrypt) (st : AuthState)
    (password clientIp : String) (now : Time) (newTok : String) (migrateFails : Bool) :
    authenticate env bc ⟨true, ""⟩ st password clientIp now newTok migrateFails
      = (.authDisabled, ⟨true, ""⟩, st) ∧
    LoginOutcome.authDisabled ≠ LoginOutcome.invalidCredential ∧
    verifyPassword bc password "" = .ok false := by
  exact ⟨rfl, by decide, rfl⟩

/-- C10: `revoke_token` never fails — revoking an unknown token leaves
the store unchanged, revoking twice equals revoking once, and the
validity of every other token is unchanged by the call. -/
theorem C10_revokeToken (tokens : TokenMap) (t : String) :
    (tokens.lookup t = none → revokeToken tokens t = tokens) ∧
    (revokeToken (revokeToken tokens t) t = revokeToken tokens t) ∧
    (∀ now t2, t2 ≠ t →
      (isTokenValid now (revokeToken tokens t) t2).1 = (isTokenValid now tokens t2).1) := by
  refine ⟨?_, ?_, ?_⟩
  · intro h
    have hmem := (lookup_eq_none_iff t tokens).mp h
    unfold revokeToken eraseKey
    apply List.filter_eq_self.mpr
    intro p hp
    have hne : p.1 ≠ t := fun he => hmem (he ▸ List.mem_map_of_mem Prod.fst hp)
    simpa using hne
  · unfold revokeToken eraseKey
    rw [List.filter_filter]
    simp
  · intro now t2 hne
    have hb : (t2 != t) = true := by rw [bne_iff_ne]; exact hne
    have hc : (cleanupExpired now (revokeToken tokens t)).lookup t2
        = (cleanupExpired now tokens).lookup t2 := by
      unfold revokeToken eraseKey cleanupExpired
      rw [List.filter_filter]
      exact lookup_filter_congr t2 _ _ (fun v => by simp [hb]) tokens
    by_cases h0 : t2 = "" <;> simp [isTokenValid, hc, h0]

/-- C10 witness: revoking the unknown token "z" on a concrete store
leaves it unchanged. -/
theorem C10_revokeToken_witness :
    revokeToken [("a", (5 : Time))] "z" = [("a", (5 : Time))] :=
  (C10_revokeToken [("a", 5)] "z").1 (by decide)

/-- C2, counterexample to the claim as stated: a validate call with the
empty token returns `False` immediately and does not clean the store —
the expired token "a" (expiry 0 ≤ now = 1) is still present when the
call returns. -/
theorem C2_cleanup_cex :
    (isTokenValid 1 [("a", (0 : Time))] "").1 = false ∧
    (isTokenValid 1 [("a", (0 : Time))] "").2 = [("a", (0 : Time))] ∧
    ((0 : Time) ≤ 1) := by decide

/-- C2 (amended): for a non-empty candidate token, `is_token_valid`
returns true iff the token is present with expiry strictly greater than
now, and by the time the call returns every expired token has been
removed (the store is exactly the cleaned store); a call with an empty
candidate returns false and leaves the store untouched. -/
theorem C2_validate (now : Time) (tokens : TokenMap) (t : String)
    (hnd : (tokens.map Prod.fst).Nodup) :
    (t ≠ "" →
      ((isTokenValid now tokens t).1 = true ↔
        ∃ e, tokens.lookup t = some e ∧ now < e) ∧
      (isTokenValid now tokens t).2 = cleanupExpired now tokens ∧
      (∀ p ∈ (isTokenValid now tokens t).2, now < p.2)) ∧
    (t = "" → isTokenValid now tokens t = (false, tokens)) := by
  constructor
  · intro ht
    have e0 : (t == "") = false := by rw [beq_eq_false_iff_ne]; exact ht
    have hlk := lookup_filter_nodup (fun p => decide (now < p.2)) tokens t hnd
    refine ⟨?_, ?_, ?_⟩
    · simp only [isTokenValid, cleanupExpired, e0, Bool.false_eq_true, if_false]
      rw [hlk]
      cases hl : tokens.lookup t with
      | none => simp
      | some e => by_cases hev : now < e <;> simp [hev]
    · simp [isTokenValid, e0]
    · intro p hp
      simp only [isTokenValid, cleanupExpired, e0, Bool.false_eq_true, if_false] at hp
      have := List.mem_filter.mp hp
      simpa using this.2
  · intro h
    subst h
    simp [isTokenValid]

/-- C2 witness: a present, unexpired token validates to true. -/
theorem C2_validate_witness :
    (isTokenValid 1 [("a", (3 : Time))] "a").1 = true :=
  ((C2_validate 1 [("a", (3 : Time))] "a" (by decide)).1 (by decide)).1.mpr
    ⟨3, rfl, by decide⟩

/-- C8: `revoke_all_tokens(keep=t1)` with t1 supplied and currently
valid keeps exactly t1 (so t1 still validates and every other token
does not) and returns the number of valid tokens removed, i.e. the
count of non-expired tokens minus one; with keep unsupplied, unknown or
already expired, every token is removed and the full count of
non-expired tokens is returned (expired entries are swept by the
leading cleanup and are not counted). -/
theorem C8_revokeAll (now : Time) (tokens : TokenMap)
    (hnd : (tokens.map Prod.fst).Nodup) :
    (∀ k e, k ≠ "" → tokens.lookup k = some e → now < e →
      revokeAllTokens now tokens (some k)
          = ((cleanupExpired now tokens).length - 1, [(k, e)]) ∧
      (isTokenValid now [(k, e)] k).1 = true ∧
      (∀ t2, t2 ≠ k → (isTokenValid now [(k, e)] t2).1 = false)) ∧
    (revokeAllTokens now tokens none = ((cleanupExpired now tokens).length, [])) ∧
    (∀ k, tokens.lookup k = none →
      revokeAllTokens now tokens (some k) = ((cleanupExpired now tokens).length, [])) ∧
    (∀ k e, tokens.lookup k = some e → e ≤ now →
      revokeAllTokens now tokens (some k) = ((cleanupExpired now tokens).length, [])) := by
  have hclean := fun (k : String) =>
    lookup_filter_nodup (fun p => decide (now < p.2)) tokens k hnd
  refine ⟨?_, rfl, ?_, ?_⟩
  · intro k e hk hlk hnow
    have e1 : (k == "") = false := by rw [beq_eq_false_iff_ne]; exact hk
    have hcl : (cleanupExpired now tokens).lookup k = some e := by
      unfold cleanupExpired
      rw [hclean k, hlk]
      simp [hnow]
    refine ⟨?_, ?_, ?_⟩
    · simp [revokeAllTokens, e1, hcl]
    · have ek : (k == "") = false := e1
      simp [isTokenValid, ek, cleanupExpired, List.filter_cons, hnow, List.lookup_cons,
        beq_self_eq_true, hk]
    · intro t2 ht2
      by_cases h0 : t2 = ""
      · subst h0; simp [isTokenValid]
      · have e2 : (t2 == "") = false := by rw [beq_eq_false_iff_ne]; exact h0
        have e3 : (t2 == k) = false := by rw [beq_eq_false_iff_ne]; exact ht2
        simp [isTokenValid, e2, cleanupExpired, List.filter_cons, hnow, List.lookup_cons, e3]
  · intro k hlk
    have hcl : (cleanupExpired now tokens).lookup k = none := by
      unfold cleanupExpired
      rw [hclean k, hlk]
      rfl
    by_cases h0 : k = ""
    · subst h0; simp [revokeAllTokens]
    · have e1 : (k == "") = false := by rw [beq_eq_false_iff_ne]; exact h0
      simp [revokeAllTokens, e1, hcl]
  · intro k e hlk he
    have hcl : (cleanupExpired now tokens).lookup k = none := by
      unfold cleanupExpired
      rw [hclean k, hlk]
      simp
      exact he
    by_cases h0 : k = ""
    · subst h0; simp [revokeAllTokens]
    · have e1 : (k == "") = false := by rw [beq_eq_false_iff_ne]; exact h0
      simp [revokeAllTokens, e1, hcl]

/-- C8 witness: on a concrete store with one expired and two live
tokens, keeping the live token "b" removes one live token, keeps "b"
valid and invalidates "c". -/
theorem C8_revokeAll_witness :
    revokeAllTokens 1 [("a", (0 : Time)), ("b", 5), ("c", 9)] (some "b") = (1, [("b", 5)]) ∧
    (isTokenValid 1 [("b", (5 : Time))] "b").1 = true ∧
    (isTokenValid 1 [("b", (5 : Time))] "c").1 = false := by
  have h := (C8_revokeAll 1 [("a", (0 : Time)), ("b", 5), ("c", 9)] (by decide)).1
    "b" 5 (by decide) (by decide) (by decide)
  exact ⟨h.1, h.2.1, h.2.2 "c" (by decide)⟩

/-- C3: `_can_attempt_login` allows iff, after pruning the timestamps
older than the window, fewer than `max_attempts` failures remain (the
front-trimming loop equals full pruning on the chronologically ordered
deque); `_record_failed_attempt` appends the current timestamp; a
successful login pops the ip's whole history (after which a fresh
attempt is allowed whenever `max_attempts` is positive); recording at
least `max_attempts` failures inside the window makes allow false; and
once every recorded failure has aged past the window, allow is true
again. -/
theorem C3_throttle (now window : Time) (maxAttempts : Nat) (fa : FailMap) (ip : String) :
    ((((fa.lookup ip).getD []).Pairwise (fun a b => a ≤ b)) →
      ((canAttemptLogin now window maxAttempts fa ip).1 = true ↔
        (((fa.lookup ip).getD []).filter
            (fun t => decide (now - t ≤ window))).length < maxAttempts)) ∧
    ((recordFailedAttempt now fa ip).lookup ip
      = some (((fa.lookup ip).getD []) ++ [now])) ∧
    ((eraseKey ip fa).lookup ip = none) ∧
    (0 < maxAttempts →
      (canAttemptLogin now window maxAttempts (eraseKey ip fa) ip).1 = true) ∧
    ((maxAttempts ≤ ((fa.lookup ip).getD []).length) →
      (∀ t ∈ (fa.lookup ip).getD [], now - t ≤ window) →
      (canAttemptLogin now window maxAttempts fa ip).1 = false) ∧
    (∀ now2 : Time, 0 < maxAttempts →
      (∀ t ∈ (fa.lookup ip).getD [], window < now2 - t) →
      (canAttemptLogin now2 window maxAttempts fa ip).1 = true) := by
  refine ⟨?_, ?_, lookup_eraseKey_self ip fa, ?_, ?_, ?_⟩
  · intro hs
    have hnot : ∀ t : Time, (!staleAttempt now window t) = decide (now - t ≤ window) := by
      intro t
      by_cases h : window < now - t
      · simp [staleAttempt, h]
        push_neg at *
        linarith
      · simp [staleAttempt, h]
        push_neg at h
        linarith
    rw [canAttemptLogin, pruneAttempts_eq_filter now window _ hs]
    simp [hnot]
  · exact lookup_setKey_self ip _ fa
  · intro hmax
    simp [canAttemptLogin, lookup_eraseKey_self, pruneAttempts, hmax]
  · intro hlen hwin
    have hall : ∀ t ∈ (fa.lookup ip).getD [], staleAttempt now window t = false := by
      intro t ht
      have := hwin t ht
      simp [staleAttempt]
      linarith
    rw [canAttemptLogin, pruneAttempts_eq_self now window _ hall]
    simp
    omega
  · intro now2 hmax hstale
    have hall : ∀ t ∈ (fa.lookup ip).getD [], staleAttempt now2 window t = true := by
      intro t ht
      simpa [staleAttempt] using hstale t ht
    rw [canAttemptLogin, pruneAttempts_eq_nil now2 window _ hall]
    simpa using hmax

/-- C3 witness: three failures all inside the window with
`max_attempts = 3` deny the next attempt. -/
theorem C3_throttle_witness :
    (canAttemptLogin 100 300 3 [("ip", [(1 : Time), 2, 90])] "ip").1 = false :=
  (C3_throttle 100 300 3 [("ip", [(1 : Time), 2, 90])] "ip").2.2.2.2.1
    (by decide) (by decide)

/-- C1, counterexample to the claim as stated: with an initialized
system and a legacy plaintext stored credential "pw", a login attempt
with the non-ASCII password "ä" does not reach any of the five claimed
outcomes — `hmac.compare_digest` raises an uncaught `TypeError` that
escapes `authenticate` (an HTTP 500), with no failed attempt recorded
for the ip (its deque is created empty by `setdefault` and nothing is
appended) and no token issued. -/
theorem C1_uncaught_typeerror_cex :
    authenticate ⟨100, 3, 300⟩ dummyBcrypt ⟨true, "pw"⟩ ⟨[], []⟩ "ä" "ip" 50 "tok" false
      = (.uncaughtError, ⟨true, "pw"⟩, ⟨[], [("ip", [])]⟩) ∧
    verifyPassword dummyBcrypt "ä" "pw" = .error () ∧
    LoginOutcome.uncaughtError ≠ LoginOutcome.notInitialized ∧
    LoginOutcome.uncaughtError ≠ LoginOutcome.authDisabled ∧
    LoginOutcome.uncaughtError ≠ LoginOutcome.rateLimited ∧
    LoginOutcome.uncaughtError ≠ LoginOutcome.invalidCredential ∧
    LoginOutcome.uncaughtError ≠ LoginOutcome.success "tok" := by
  refine ⟨by decide, rfl, by decide, by decide, by decide, by decide, by decide⟩

/-- C1 (amended): `authenticate` reaches exactly one terminal outcome,
decided in order: not initialized; credential empty; throttle denies
(nothing recorded, token store untouched — the ip's window is only
pruned, a sublist of what was there); then password verification runs —
if it raises (the uncaught `TypeError` of `compare_digest` on
non-ASCII input against a legacy plaintext credential) the call
terminates with an internal error, no failed attempt recorded and no
token issued; if it returns false, exactly one failure is appended for
the ip and the login fails `InvalidCredential`; else success — the
failure history of the ip is cleared, a fresh token with expiry
`now + ttl` is recorded and returned, and (the `migrateFails` parameter
being universally quantified) a plaintext-migration failure does not
change the outcome: the login still succeeds. -/
theorem C1_authenticate_flow (env : AuthEnv) (bc : Bcrypt) (cfg : Config)
    (st : AuthState) (password clientIp : String) (now : Time) (newTok : String)
    (migrateFails : Bool) :
    (cfg.initialized = false →
      authenticate env bc cfg st password clientIp now newTok migrateFails
        = (.notInitialized, cfg, st)) ∧
    (cfg.initialized = true → cfg.panelPassword = "" →
      authenticate env bc cfg st password clientIp now newTok migrateFails
        = (.authDisabled, cfg, st)) ∧
    (cfg.initialized = true → cfg.panelPassword ≠ "" →
      (canAttemptLogin now env.attemptWindowSeconds env.maxLoginAttempts
          st.failedAttempts clientIp).1 = false →
      (authenticate env bc cfg st password clientIp now newTok migrateFails).1
          = .rateLimited ∧
      (authenticate env bc cfg st password clientIp now newTok migrateFails).2.1 = cfg ∧
      (authenticate env bc cfg st password clientIp now newTok
          migrateFails).2.2.tokens = st.tokens ∧
      (authenticate env bc cfg st password clientIp now newTok
          migrateFails).2.2.failedAttempts.lookup clientIp
        = some (pruneAttempts now env.attemptWindowSeconds
            ((st.failedAttempts.lookup clientIp).getD [])) ∧
      (pruneAttempts now env.attemptWindowSeconds
          ((st.failedAttempts.lookup clientIp).getD [])).Sublist
        ((st.failedAttempts.lookup clientIp).getD [])) ∧
    (cfg.initialized = true → cfg.panelPassword ≠ "" →
      (canAttemptLogin now env.attemptWindowSeconds env.maxLoginAttempts
          st.failedAttempts clientIp).1 = true →
      verifyPassword bc password cfg.panelPassword = .error () →
      (authenticate env bc cfg st password clientIp now newTok migrateFails).1
          = .uncaughtError ∧
      (authenticate env bc cfg st password clientIp now newTok migrateFails).2.1 = cfg ∧
      (authenticate env bc cfg st password clientIp now newTok
          migrateFails).2.2.tokens = st.tokens ∧
      (authenticate env bc cfg st password clientIp now newTok
          migrateFails).2.2.failedAttempts.lookup clientIp
        = some (pruneAttempts now env.attemptWindowSeconds
            ((st.failedAttempts.lookup clientIp).getD [])) ∧
      (pruneAttempts now env.attemptWindowSeconds
          ((st.failedAttempts.lookup clientIp).getD [])).Sublist
        ((st.failedAttempts.lookup clientIp).getD [])) ∧
    (cfg.initialized = true → cfg.panelPassword ≠ "" →
      (canAttemptLogin now env.attemptWindowSeconds env.maxLoginAttempts
          st.failedAttempts clientIp).1 = true →
      verifyPassword bc password cfg.panelPassword = .ok false →
      (authenticate env bc cfg st password clientIp now newTok migrateFails).1
          = .invalidCredential ∧
      (authenticate env bc cfg st password clientIp now newTok migrateFails).2.1 = cfg ∧
      (authenticate env bc cfg st password clientIp now newTok
          migrateFails).2.2.tokens = st.tokens ∧
      (authenticate env bc cfg st password clientIp now newTok
          migrateFails).2.2.failedAttempts.lookup clientIp
        = some (pruneAttempts now env.attemptWindowSeconds
            ((st.failedAttempts.lookup clientIp).getD []) ++ [now])) ∧
    (cfg.initialized = true → cfg.panelPassword ≠ "" →
      (canAttemptLogin now env.attemptWindowSeconds env.maxLoginAttempts
          st.failedAttempts clientIp).1 = true →
      verifyPassword bc password cfg.panelPassword = .ok true →
      (authenticate env bc cfg st password clientIp now newTok migrateFails).1
          = .success newTok ∧
      (authenticate env bc cfg st password clientIp now newTok
          migrateFails).2.2.failedAttempts.lookup clientIp = none ∧
      (authenticate env bc cfg st password clientIp now newTok
          migrateFails).2.2.tokens.lookup newTok = some (now + env.tokenTtlSeconds)) := by
  refine ⟨?_, ?_, ?_, ?_, ?_, ?_⟩
  · intro h
    simp [authenticate, h]
  · intro h1 h2
    simp [authenticate, h1, h2]
  · intro h1 h2 hall
    have e2 : (cfg.panelPassword == "") = false := by rw [beq_eq_false_iff_ne]; exact h2
    simp only [authenticate, h1, e2, Bool.not_true, Bool.false_eq_true, if_false,
      hall, Bool.not_false, if_true]
    refine ⟨trivial, trivial, trivial, ?_, pruneAttempts_sublist now env.attemptWindowSeconds _⟩
    simp [canAttemptLogin, lookup_setKey_self]
  · intro h1 h2 hall hver
    have e2 : (cfg.panelPassword == "") = false := by rw [beq_eq_false_iff_ne]; exact h2
    simp only [authenticate, h1, e2, Bool.not_true, Bool.false_eq_true, if_false,
      hall, Bool.not_false, if_true, hver]
    refine ⟨trivial, trivial, trivial, ?_, pruneAttempts_sublist now env.attemptWindowSeconds _⟩
    simp [canAttemptLogin, lookup_setKey_self]
  · intro h1 h2 hall hver
    have e2 : (cfg.panelPassword == "") = false := by rw [beq_eq_false_iff_ne]; exact h2
    simp only [authenticate, h1, e2, Bool.not_true, Bool.false_eq_true, if_false,
      hall, Bool.not_false, if_true, hver]
    refine ⟨trivial, trivial, trivial, ?_⟩
    simp [recordFailedAttempt, canAttemptLogin, lookup_setKey_self]
  · intro h1 h2 hall hver
    have e2 : (cfg.panelPassword == "") = false := by rw [beq_eq_false_iff_ne]; exact h2
    simp only [authenticate, h1, e2, Bool.not_true, Bool.false_eq_true, if_false,
      hall, Bool.not_false, if_true, hver]
    refine ⟨rfl, ?_, ?_⟩
    · simp [lookup_eraseKey_self]
    · simp [createToken, lookup_setKey_self]

/-- C1 witness: a concrete successful login on an initialized system
with an ASCII plaintext credential issues the fresh token. -/
theorem C1_authenticate_flow_witness :
    (authenticate ⟨100, 3, 300⟩ dummyBcrypt ⟨true, "pw"⟩ ⟨[], []⟩ "pw" "ip" 50 "tok"
        false).1 = .success "tok" :=
  ((C1_authenticate_flow ⟨100, 3, 300⟩ dummyBcrypt ⟨true, "pw"⟩ ⟨[], []⟩ "pw" "ip" 50
      "tok" false).2.2.2.2.2 rfl (by decide) (by decide) rfl).1

/-- C7, counterexample to the claim as stated: the code truncates the
Host header at its first colon, which is not "the port suffix removed"
for a bracketed IPv6 literal — `[::1]:8080` yields host `[`, not
`[::1]`. -/
theorem C7_ipv6_cex :
    buildRedirectTarget "[::1]:8080" "/a?b=1" "" 443 = "https://[/a?b=1" ∧
    buildRedirectTarget "[::1]:8080" "/a?b=1" "" 443 ≠ "https://[::1]/a?b=1" := by
  decide

/-- C7 (amended): for a non-empty (parsed) path the redirect target is
`https://{host}{path}` where host is the force domain when configured,
otherwise the Host-header value truncated at its first colon (which
strips a port suffix but mangles bracketed IPv6 literals), otherwise
"localhost"; the `:{https_port}` suffix appears iff https_port ≠ 443.
The claim's concrete examples hold. -/
theorem C7_redirect_target (hostHeader path forceDomain : String) (httpsPort : Nat) :
    (path ≠ "" →
      buildRedirectTarget hostHeader path forceDomain httpsPort =
        "https://" ++
          (let hostBase :=
            if forceDomain ≠ "" then forceDomain
            else if String.mk (hostHeader.data.takeWhile (fun c => c != ':')) ≠ "" then
              String.mk (hostHeader.data.takeWhile (fun c => c != ':'))
            else "localhost"
          if httpsPort = 443 then hostBase
          else hostBase ++ ":" ++ toString httpsPort) ++ path) ∧
    buildRedirectTarget "example.com:8080" "/a?b=1" "" 443
      = "https://example.com/a?b=1" ∧
    buildRedirectTarget "example.com:8080" "/a?b=1" "" 8443
      = "https://example.com:8443/a?b=1" := by
  refine ⟨?_, by decide, by decide⟩
  intro hp
  have hp2 : (path == "") = false := by rw [beq_eq_false_iff_ne]; exact hp
  have hh : (if hostHeader == "" then ""
      else String.mk (hostHeader.data.takeWhile (fun c => c != ':')))
      = String.mk (hostHeader.data.takeWhile (fun c => c != ':')) := by
    by_cases h1 : hostHeader = ""
    · subst h1; rfl
    · have e : (hostHeader == "") = false := by rw [beq_eq_false_iff_ne]; exact h1
      simp [e]
  simp only [buildRedirectTarget, hh, hp2, Bool.false_eq_true, if_false]
  by_cases hf : forceDomain = "" <;>
    by_cases hw : String.mk (hostHeader.data.takeWhile (fun c => c != ':')) = "" <;>
      by_cases h443 : httpsPort = 443 <;>
        simp [hf, hw, h443]

/-- C7 witness: the general characterization at the claim's own
example input. -/
theorem C7_redirect_target_witness :
    buildRedirectTarget "example.com" "/a?b=1" "" 8443
      = "https://example.com:8443/a?b=1" := by
  have h := (C7_redirect_target "example.com" "/a?b=1" "" 8443).1 (by decide)
  rw [h]
  decide

theorem httpMethodTokens_eq :
    httpMethodTokens =
      [[71, 69, 84, 32], [80, 79, 83, 84, 32], [80, 85, 84, 32],
       [80, 65, 84, 67, 72, 32], [68, 69, 76, 69, 84, 69, 32], [72, 69, 65, 68, 32],
       [79, 80, 84, 73, 79, 78, 83, 32], [84, 82, 65, 67, 69, 32],
       [67, 79, 78, 78, 69, 67, 84, 32]] := by decide

theorem looksLikeTls_iff (p : Bytes) :
    looksLikeTls p = true ↔
      3 ≤ p.length ∧ p.getD 0 0 = 22 ∧ p.getD 1 0 = 3 ∧ p.getD 2 0 ≤ 4 := by
  match p with
  | [] => simp [looksLikeTls]
  | [a] => simp [looksLikeTls]
  | [a, b] => simp [looksLikeTls]
  | b0 :: b1 :: b2 :: rest =>
    simp [looksLikeTls, List.getD]
    tauto

theorem tls_not_http (p : Bytes) (h : looksLikeTls p = true) :
    looksLikeHttp p = false := by
  match p with
  | [] => simp [looksLikeTls] at h
  | [a] => simp [looksLikeTls] at h
  | [a, b] => simp [looksLikeTls] at h
  | b0 :: b1 :: b2 :: rest =>
    simp only [looksLikeTls, Bool.and_eq_true, beq_iff_eq, decide_eq_true_eq] at h
    obtain ⟨⟨h0, h1⟩, h2⟩ := h
    subst h0
    have hu : byteUpper 22 = 22 := by decide
    simp [looksLikeHttp, httpMethodTokens_eq, bytesUpper, hu, List.isPrefixOf]

theorem classifyStream_eq_tls_iff (p : Bytes) :
    classifyStream p = .tls ↔ looksLikeTls p = true := by
  unfold classifyStream
  by_cases h : looksLikeTls p = true
  · simp [h]
  · by_cases h2 : looksLikeHttp p = true <;> simp [h, h2]

theorem classifyStream_eq_http_iff (p : Bytes) :
    classifyStream p = .http ↔ looksLikeHttp p = true := by
  unfold classifyStream
  by_cases h : looksLikeTls p = true
  · simp [h, tls_not_http p h]
  · by_cases h2 : looksLikeHttp p = true <;> simp [h, h2]

theorem classifyStream_eq_unknown_iff (p : Bytes) :
    classifyStream p = .unknown ↔
      looksLikeTls p = false ∧ looksLikeHttp p = false := by
  unfold classifyStream
  by_cases h : looksLikeTls p = true
  · simp [h]
  · by_cases h2 : looksLikeHttp p = true <;> simp [h, h2]

/-- C4: a prefix is classified tls iff it has at least 3 bytes with
byte 0 = 0x16, byte 1 = 0x03 and byte 2 ≤ 0x04; it is classified http
iff its upper-cased form starts with one of the nine method tokens
(each including the trailing space); anything else is unknown.  The
claim's three literal inputs classify as stated, and the GET example
parses to path `/x`. -/
theorem C4_classification (p : Bytes) :
    (classifyStream p = .tls ↔
      3 ≤ p.length ∧ p.getD 0 0 = 22 ∧ p.getD 1 0 = 3 ∧ p.getD 2 0 ≤ 4) ∧
    (classifyStream p = .http ↔
      ∃ m ∈ httpMethodTokens, m.isPrefixOf (bytesUpper p) = true) ∧
    (classifyStream p = .unknown ↔
      looksLikeTls p = false ∧ looksLikeHttp p = false) ∧
    classifyStream [22, 3, 1] = .tls ∧
    classifyStream (strBytes "GET /x HTTP/1.1\r\n") = .http ∧
    (parseHttpHostAndPath ("GET /x HTTP/1.1\r\n").data).2 = "/x".data ∧
    classifyStream [0, 1, 2] = .unknown := by
  refine ⟨(classifyStream_eq_tls_iff p).trans (looksLikeTls_iff p),
    (classifyStream_eq_http_iff p).trans ?_, classifyStream_eq_unknown_iff p,
    by decide, by decide, by decide, by decide⟩
  simp [looksLikeHttp, List.any_eq_true]

theorem scanHostHeader_eq_firstHostHeader (lines : List Chars) (h : Chars) :
    scanHostHeader lines h = (firstHostHeader lines).getD h := by
  induction lines with
  | nil => rfl
  | cons line rest ih =>
    by_cases hb : line = []
    · simp [scanHostHeader, firstHostHeader, hb]
    · cases hv : hostHeaderValue line with
      | some v => simp [scanHostHeader, firstHostHeader, hb, hv]
      | none => simp [scanHostHeader, firstHostHeader, hb, hv, ih]

/-- C5, counterexample to the claim as stated: for a request line whose
target is the absolute URL `http://a.com/p` (scheme `http`, authority
`a.com`), the header lines are still consulted — the `Host: b.com`
header before the blank line overrides the absolute-URL host, so the
parse yields host `b.com`, not `a.com`. -/
theorem C5_absolute_host_cex :
    (urlsplit ("http://a.com/p").data).scheme = "http".data ∧
    (urlsplit ("http://a.com/p").data).netloc = "a.com".data ∧
    parseHttpHostAndPath ("GET http://a.com/p HTTP/1.1\r\nHost: b.com\r\n\r\n").data
      = ("b.com".data, "/p".data) ∧
    ("b.com".data : Chars) ≠ "a.com".data := by
  refine ⟨by decide, by decide, by decide, by decide⟩

/-- C5 (amended): on the modelled fragment — the request-line target's
netloc is bracket-free ASCII, so the stdlib `urlsplit` cannot raise and
`_parse_http_host_and_path` returns — the returned path always starts
with `/`; a case-insensitive `Host:` header strictly before the blank
line always wins (first match), even over an absolute-URL request
target; only when no such header exists does the host come from the
request line, where an absolute target with truthy scheme and authority
supplies its netloc; and with fewer than two request-line parts the
path defaults to `/` (that case never reaches `urlsplit`). -/
theorem C5_parse_host_path (raw : Chars)
    (_hsafe : netlocSafe (urlsplit (requestTarget raw))) :
    ((parseHttpHostAndPath raw).2.head? = some '/') ∧
    (∀ v, firstHostHeader (splitCRLF raw).tail = some v →
      (parseHttpHostAndPath raw).1 = v) ∧
    (firstHostHeader (splitCRLF raw).tail = none →
      ∀ first rest, splitCRLF raw = first :: rest →
        (parseHttpHostAndPath raw).1 = (parseRequestLine first).1) ∧
    (∀ first m tgt more, pySplitWs first = m :: tgt :: more →
      netlocSafe (urlsplit (if pyStrip tgt = [] then ['/'] else pyStrip tgt)) →
      (urlsplit (if pyStrip tgt = [] then ['/'] else pyStrip tgt)).scheme ≠ [] →
      (urlsplit (if pyStrip tgt = [] then ['/'] else pyStrip tgt)).netloc ≠ [] →
      (parseRequestLine first).1
        = (urlsplit (if pyStrip tgt = [] then ['/'] else pyStrip tgt)).netloc) ∧
    (∀ first rest, splitCRLF raw = first :: rest → (pySplitWs first).length < 2 →
      (parseHttpHostAndPath raw).2 = ['/']) := by
  refine ⟨?_, ?_, ?_, ?_, ?_⟩
  · cases hl : splitCRLF raw with
    | nil => simp [parseHttpHostAndPath, hl]
    | cons first rest =>
      simp only [parseHttpHostAndPath, hl]
      by_cases hh : (parseRequestLine first).2.head? = some '/' <;> simp [hh]
  · intro v hv
    cases hl : splitCRLF raw with
    | nil =>
      rw [hl] at hv
      simp [firstHostHeader] at hv
    | cons first rest =>
      rw [hl] at hv
      simp only [List.tail_cons] at hv
      simp [parseHttpHostAndPath, hl, scanHostHeader_eq_firstHostHeader, hv]
  · intro hn first rest hl
    rw [hl] at hn
    simp only [List.tail_cons] at hn
    simp [parseHttpHostAndPath, hl, scanHostHeader_eq_firstHostHeader, hn]
  · intro first m tgt more hsplit _hsafe2 hs hnl
    simp [parseRequestLine, hsplit, hs, hnl]
  · intro first rest hl hlen
    rcases hsp : pySplitWs first with _ | ⟨a, _ | ⟨b, t⟩⟩
    · simp [parseHttpHostAndPath, hl, parseRequestLine, hsp]
    · simp [parseHttpHostAndPath, hl, parseRequestLine, hsp]
    · rw [hsp] at hlen
      simp at hlen
      omega

/-- C5 witness: the host comes from the first Host header on a concrete
relative-target request. -/
theorem C5_parse_host_path_witness :
    (parseHttpHostAndPath ("GET / HTTP/1.1\r\nHost: h.example\r\n\r\n").data).1
      = "h.example".data :=
  (C5_parse_host_path ("GET / HTTP/1.1\r\nHost: h.example\r\n\r\n").data
      ⟨by decide, by decide, by decide⟩).2.1
    ("h.example".data) (by decide)

end Lumina
